import Mathlib

/-!
# Hierarchical-Z buffer controller (`eevee_hizbuffer.hh`)

A shallow embedding of `blender::eevee::HiZBuffer`.

* The controller state carries the fields of the class that the inline
  member functions of the header read or write: `hiz_tx_`,
  `hiz_front_ref_tx_`, `hiz_back_ref_tx_`, `layer_id_`, `is_dirty_`,
  `src_tx_ptr_` and `atomic_tile_counter_`.
* `set_source`, `swap_layer`, `set_dirty`, `bind_resources` and the
  constructor are translated from the header.
* `SwapChain`, `PassSimple::bind_texture`, `HiZBuffer::update` and the
  down-sampling kernel are only declared or used by the header; their
  models are marked `Modelled from the spec`.
-/

namespace blender.eevee

/-! ## Data model -/

/-- A `GPUTexture *`: `none` is `nullptr`, `some a` the texture object at
address `a`. -/
abbrev GPUTexturePtr := Option Nat

/-- A `GPUTexture **`: `none` is `nullptr`, `some a` the address of an
external `GPUTexture *` variable. -/
abbrev GPUTexturePtrPtr := Option Nat

/-- Modelled from the spec: the `SwapChain<Texture, 2>` type, declared outside
the header. Two texture slots and a selector telling which one is current.
A slot holds the handle of its texture (`none` while unallocated). -/
structure SwapChain where
  slot0 : GPUTexturePtr
  slot1 : GPUTexturePtr
  /-- The selector: `false` means slot 0 is current, `true` means slot 1 is. -/
  selector : Bool
  deriving DecidableEq, Repr

namespace SwapChain

/-- Modelled from the spec: `SwapChain::swap`, an O(1) selector flip without
data movement. -/
def swap (c : SwapChain) : SwapChain :=
  { c with selector := !c.selector }

/-- Modelled from the spec: `SwapChain::current`, the texture of the slot
that receives writes. -/
def current (c : SwapChain) : GPUTexturePtr :=
  if c.selector then c.slot1 else c.slot0

/-- Modelled from the spec: `SwapChain::previous`, the texture of the other
slot. -/
def previous (c : SwapChain) : GPUTexturePtr :=
  if c.selector then c.slot0 else c.slot1

end SwapChain

/-- One completed run of the recursive down-sample pass, as seen by a
build-count probe: what was read and which texture was written. -/
structure BuildRecord where
  source : GPUTexturePtrPtr
  layer : Int
  target : GPUTexturePtr
  deriving DecidableEq, Repr

/-- The state of a `HiZBuffer`. `builds` is a ghost field: the log of the
builds performed so far (the build-count probe). -/
structure HiZBuffer where
  hiz_tx_ : SwapChain
  hiz_front_ref_tx_ : GPUTexturePtr
  hiz_back_ref_tx_ : GPUTexturePtr
  /-- The four components of the `uint4` tile counter. -/
  atomic_tile_counter_ : List Nat
  layer_id_ : Int
  is_dirty_ : Bool
  src_tx_ptr_ : GPUTexturePtrPtr
  builds : List BuildRecord
  deriving DecidableEq, Repr

/-- Which pyramid a consumer binds: `enum class Type { BACK, FRONT }`. -/
inductive HiZType where
  | BACK
  | FRONT
  deriving DecidableEq, Repr

/-- The argument `bind_resources` hands to `bind_texture`: the address of one
of the two reference members, `&hiz_front_ref_tx_` or `&hiz_back_ref_tx_`. -/
inductive RefMember where
  | front_ref
  | back_ref
  deriving DecidableEq, Repr

/-- One texture binding registered on a pass: a slot and the address of the
reference it reads. -/
structure TextureBinding where
  slot : Nat
  ref : RefMember
  deriving DecidableEq, Repr

/-- Modelled from the spec: the consumer pass (`PassType`), declared outside the
header. Only its binding registrations are observable: the list of texture
bindings in registration order. -/
abbrev Pass := List TextureBinding

/-- Modelled from the spec: `PassType::bind_texture(slot, GPUTexture **)`, which
registers one binding on the pass. -/
def Pass.bind_texture (pass : Pass) (slot : Nat) (ref : RefMember) : Pass :=
  pass ++ [{ slot := slot, ref := ref }]

/-- The error taxonomy of the controller. -/
inductive HiZError where
  | ResourceAllocationError
  | PreconditionError
  deriving DecidableEq, Repr

namespace HiZBuffer

/-- The texture a reference member denotes in a given controller state. -/
def deref (h : HiZBuffer) : RefMember → GPUTexturePtr
  | .front_ref => h.hiz_front_ref_tx_
  | .back_ref => h.hiz_back_ref_tx_

/-! ## Operations of the header -/

/-- The constructor `HiZBuffer(Instance &, HiZData &)`: the member initializers
of the class followed by `atomic_tile_counter_.clear_to_zero()`. The swap chain
member is default-constructed by code outside the header, so its state is a
parameter; the constructor itself allocates no texture, which is `slot0` and
`slot1` being `none`. -/
def new (hiz_tx : SwapChain) : HiZBuffer :=
  { hiz_tx_ := hiz_tx
    hiz_front_ref_tx_ := none
    hiz_back_ref_tx_ := none
    atomic_tile_counter_ := [0, 0, 0, 0]
    layer_id_ := -1
    is_dirty_ := true
    src_tx_ptr_ := none
    builds := [] }

/-- The member function `set_source(GPUTexture **texture, int layer)`. -/
def set_source (h : HiZBuffer) (texture : GPUTexturePtrPtr) (layer : Int) : HiZBuffer :=
  { h with src_tx_ptr_ := texture, layer_id_ := layer }

/-- The call `set_source(texture)` with the `layer` argument omitted, for which
the declaration gives the default `-1`. -/
def set_source_default (h : HiZBuffer) (texture : GPUTexturePtrPtr) : HiZBuffer :=
  set_source h texture (-1)

/-- The member function `set_dirty()`. -/
def set_dirty (h : HiZBuffer) : HiZBuffer :=
  { h with is_dirty_ := true }

/-- The member function `swap_layer()`: swap the chain, re-derive the back and
the front reference from it, then `set_dirty()`. -/
def swap_layer (h : HiZBuffer) : HiZBuffer :=
  let h1 := { h with hiz_tx_ := h.hiz_tx_.swap }
  let h2 := { h1 with hiz_back_ref_tx_ := h1.hiz_tx_.previous }
  let h3 := { h2 with hiz_front_ref_tx_ := h2.hiz_tx_.current }
  set_dirty h3

/-- The member function `bind_resources(PassType &pass, Type type)`. It has no
failing path (no assertion, no early return): the result is always `ok`, the
controller as it was and the pass with one more binding. `HIZ_TEX_SLOT` is a
constant defined outside the header and is taken as a parameter. -/
def bind_resources (HIZ_TEX_SLOT : Nat) (h : HiZBuffer) (pass : Pass) (type : HiZType) :
    Except HiZError (HiZBuffer × Pass) :=
  .ok (h, pass.bind_texture HIZ_TEX_SLOT
    (if type = HiZType.FRONT then RefMember.front_ref else RefMember.back_ref))

/-- The call `bind_resources(pass)` with the `type` argument omitted, for
which the declaration gives the default `Type::FRONT`. -/
def bind_resources_default (HIZ_TEX_SLOT : Nat) (h : HiZBuffer) (pass : Pass) :
    Except HiZError (HiZBuffer × Pass) :=
  bind_resources HIZ_TEX_SLOT h pass HiZType.FRONT

/-- Modelled from the spec: `HiZBuffer::update()`, which the header declares
without a body. A clean controller returns at once. A dirty controller
without a source is a precondition error. Otherwise one run of the recursive
down-sample pass reads the bound source and writes the current slot of the
swap chain, and the dirty flag is cleared. -/
def update (h : HiZBuffer) : Except HiZError HiZBuffer :=
  if h.is_dirty_ = false then
    .ok h
  else if h.src_tx_ptr_ = none then
    .error HiZError.PreconditionError
  else
    .ok { h with
      builds := h.builds ++
        [{ source := h.src_tx_ptr_, layer := h.layer_id_, target := h.hiz_tx_.current }]
      is_dirty_ := false }

/-! ## Call sequences -/

/-- A call of one of the four member functions defined in the header, with
its arguments. -/
inductive Op where
  | set_source (texture : GPUTexturePtrPtr) (layer : Int)
  | set_dirty
  | swap_layer
  | bind_resources (pass : Pass) (type : HiZType)
  deriving DecidableEq, Repr

/-- The controller after one call. A `bind_resources` call that fails would
leave the controller as it was. -/
def step (HIZ_TEX_SLOT : Nat) (h : HiZBuffer) : Op → HiZBuffer
  | .set_source texture layer => set_source h texture layer
  | .set_dirty => set_dirty h
  | .swap_layer => swap_layer h
  | .bind_resources pass type =>
    match bind_resources HIZ_TEX_SLOT h pass type with
    | .ok r => r.1
    | .error _ => h

/-- The controller after a sequence of calls, in order. -/
def run (HIZ_TEX_SLOT : Nat) (h : HiZBuffer) (ops : List Op) : HiZBuffer :=
  ops.foldl (step HIZ_TEX_SLOT) h

/-- A controller state whose swap chain textures are allocated (at addresses 1
and 2, slot 0 current) while the references still hold their initial null. -/
def fresh : HiZBuffer := new { slot0 := some 1, slot1 := some 2, selector := false }

/-- A newly constructed controller: no texture of the swap chain is allocated
yet. -/
def pristine : HiZBuffer := new { slot0 := none, slot1 := none, selector := false }

/-- The references agree with the swap chain: front is its current texture,
back its previous one. -/
def InSync (h : HiZBuffer) : Prop :=
  h.hiz_front_ref_tx_ = h.hiz_tx_.current ∧ h.hiz_back_ref_tx_ = h.hiz_tx_.previous

instance (h : HiZBuffer) : Decidable (InSync h) := by
  unfold InSync; infer_instance

end HiZBuffer

/-! ## The recursive down-sample pass -/

namespace hiz_update

/-- Modelled from the spec: a depth image or one mip level of the pyramid
texture, declared outside the header. Texel `(x, y)` is stored row-major at
address `y * width + x`. -/
structure Image (α : Type) where
  width : Nat
  height : Nat
  data : Nat → α

/-- The value stored for texel `(x, y)`. -/
def Image.texel {α : Type} (img : Image α) (x y : Nat) : α :=
  img.data (y * img.width + x)

/-- Modelled from the spec: the reduction operator of the kernel, which
combines a block of four texels into one with the maximum. -/
def reduce4 {α : Type} [LinearOrder α] (a b c d : α) : α :=
  max (max a b) (max c d)

/-- The smallest multiple of `b` that is at least `a`. -/
def ceil_to_multiple (a b : Nat) : Nat :=
  (a + b - 1) / b * b

/-- Modelled from the spec: the padded extent of mip 0 for `K` mip levels, the
smallest size at least `n` that halves exactly `K - 1` times. -/
def padded_extent (K n : Nat) : Nat :=
  ceil_to_multiple n (2 ^ (K - 1))

/-- Modelled from the spec: mip level 0, written directly from the source. The
spec fixes the padded extent and that padding never crops; what the kernel
writes to a padding texel is left open and is the parameter `fill`. -/
def copy_mip_0 {α : Type} (K : Nat) (fill : Nat → Nat → α) (src : Image α) : Image α :=
  let w := padded_extent K src.width
  { width := w
    height := padded_extent K src.height
    data := fun k =>
      let x := k % w
      let y := k / w
      if x < src.width ∧ y < src.height then src.texel x y else fill x y }

/-- Modelled from the spec: one reduction step of the kernel. The next level
has the dimensions of this one halved (rounded up), and each of its texels
combines the block of four texels below it. -/
def downsample {α : Type} [LinearOrder α] (img : Image α) : Image α :=
  let w := (img.width + 1) / 2
  { width := w
    height := (img.height + 1) / 2
    data := fun k =>
      let x := k % w
      let y := k / w
      reduce4 (img.texel (2 * x) (2 * y)) (img.texel (2 * x + 1) (2 * y))
        (img.texel (2 * x) (2 * y + 1)) (img.texel (2 * x + 1) (2 * y + 1)) }

/-- The mip levels produced from a given level on: the level itself, then the
levels reduced from it, `k` in all. -/
def mip_chain {α : Type} [LinearOrder α] : Nat → Image α → List (Image α)
  | 0, _ => []
  | k + 1, img => img :: mip_chain k (downsample img)

/-- Modelled from the spec: one build of the recursive down-sample pass, the `K`
mip levels of the pyramid written from the source depth image. -/
def build {α : Type} [LinearOrder α] (K : Nat) (fill : Nat → Nat → α) (src : Image α) :
    List (Image α) :=
  mip_chain K (copy_mip_0 K fill src)

/-- The source of the end-to-end scenario: 6 by 6 texels with the value
`x + y` at `(x, y)`. -/
def scenario_source : Image Nat :=
  { width := 6, height := 6, data := fun k => k % 6 + k / 6 }

/-! ### The tile-completion counter -/

/-- One thread group reaching its increment: the coarse region it
contributes to and its identity within that region. -/
structure Arrival where
  region : Nat
  group : Nat
  deriving DecidableEq, Repr

/-- What a thread group sees after its increment. -/
structure Observation where
  region : Nat
  group : Nat
  value : Nat
  elected : Bool
  deriving DecidableEq, Repr

/-- The number of values of a 32-bit unsigned counter (the components of the
`uint4` of `atomic_tile_counter_`). -/
def uint_range : Nat := 2 ^ 32

/-- Modelled from the spec: the atomic increment-and-read of the counter of one
region. Counters are 32-bit unsigned. The result is the counter array after
the increment and the post-increment value read back. -/
def atomic_increment_read (counters : Nat → Nat) (region : Nat) : (Nat → Nat) × Nat :=
  let v := (counters region + 1) % uint_range
  (Function.update counters region v, v)

/-- Modelled from the spec: the counter protocol of one build under one
interleaving. The atomic operations take effect one after another in the
order of `schedule`. A group is elected when the value it reads back equals
the contributor count of its region. -/
def run_arrivals (contributors : Nat → Nat) :
    (Nat → Nat) → List Arrival → List Observation
  | _, [] => []
  | counters, a :: rest =>
    let r := atomic_increment_read counters a.region
    { region := a.region, group := a.group, value := r.2,
      elected := r.2 == contributors a.region } ::
      run_arrivals contributors r.1 rest

/-- The groups of a region in their order of arrival. -/
def arrivals_of (schedule : List Arrival) (region : Nat) : List Nat :=
  (schedule.filter (fun a => a.region == region)).map (fun a => a.group)

/-- The groups of a region that observed the election condition. -/
def last_arrivals (contributors : Nat → Nat) (counters : Nat → Nat)
    (schedule : List Arrival) (region : Nat) : List Nat :=
  ((run_arrivals contributors counters schedule).filter
    (fun o => o.region == region && o.elected)).map (fun o => o.group)

/-- The contributor counts of a small build: three groups for region 0, two
for every other region. -/
def example_contributors : Nat → Nat := fun r => if r = 0 then 3 else 2

/-- One interleaving of the arrivals of two regions. -/
def example_schedule : List Arrival :=
  [⟨0, 2⟩, ⟨1, 0⟩, ⟨0, 0⟩, ⟨1, 1⟩, ⟨0, 1⟩]

end hiz_update

/-! ## Theorems about the controller -/

theorem SwapChain.current_swap (c : SwapChain) : c.swap.current = c.previous := by
  cases hsel : c.selector <;> simp [SwapChain.swap, SwapChain.current, SwapChain.previous, hsel]

theorem SwapChain.previous_swap (c : SwapChain) : c.swap.previous = c.current := by
  cases hsel : c.selector <;> simp [SwapChain.swap, SwapChain.current, SwapChain.previous, hsel]

namespace HiZBuffer

theorem swap_layer_back (h : HiZBuffer) :
    (swap_layer h).hiz_back_ref_tx_ = h.hiz_tx_.current :=
  SwapChain.previous_swap h.hiz_tx_

theorem swap_layer_front (h : HiZBuffer) :
    (swap_layer h).hiz_front_ref_tx_ = h.hiz_tx_.previous :=
  SwapChain.current_swap h.hiz_tx_

theorem step_preserves_InSync (slot : Nat) (h : HiZBuffer) (op : Op) (hs : InSync h) :
    InSync (step slot h op) := by
  cases op <;> simp_all [step, InSync, set_source, set_dirty, swap_layer, bind_resources,
    SwapChain.swap, SwapChain.current, SwapChain.previous]

theorem swap_layer_InSync (h : HiZBuffer) : InSync (swap_layer h) := by
  simp [InSync, swap_layer, set_dirty]

theorem run_preserves_InSync (slot : Nat) (ops : List Op) :
    ∀ h : HiZBuffer, InSync h → InSync (run slot h ops) := by
  induction ops with
  | nil => intro h hs; exact hs
  | cons op rest ih =>
    intro h hs
    exact ih (step slot h op) (step_preserves_InSync slot h op hs)

theorem new_InSync (hiz_tx : SwapChain) (h0 : hiz_tx.slot0 = none)
    (h1 : hiz_tx.slot1 = none) : InSync (new hiz_tx) := by
  cases hsel : hiz_tx.selector <;>
    simp [InSync, new, SwapChain.current, SwapChain.previous, hsel, h0, h1]

theorem step_dirty (slot : Nat) (h : HiZBuffer) (op : Op) (hd : h.is_dirty_ = true) :
    (step slot h op).is_dirty_ = true := by
  cases op <;> simp_all [step, set_source, set_dirty, swap_layer, bind_resources]

theorem run_dirty (slot : Nat) (ops : List Op) :
    ∀ h : HiZBuffer, h.is_dirty_ = true → (run slot h ops).is_dirty_ = true := by
  induction ops with
  | nil => intro h hd; exact hd
  | cons op rest ih =>
    intro h hd
    exact ih (step slot h op) (step_dirty slot h op hd)

/-- C1: `update()` is gated by the dirty flag. With a bound source, a clean
controller is returned unchanged and no build is logged; a dirty controller
logs exactly one build, reading the bound source and layer and writing the
current texture of the swap chain (the front reference when the references
are in sync), ends clean with every other field unchanged, and a second
`update()` right after returns that state unchanged. -/
theorem update_dirty_gating (h : HiZBuffer) (hsrc : h.src_tx_ptr_ ≠ none) :
    (h.is_dirty_ = false → update h = .ok h) ∧
    (h.is_dirty_ = true →
      ∃ h1 : HiZBuffer, update h = .ok h1 ∧
        h1.builds = h.builds ++
          [{ source := h.src_tx_ptr_, layer := h.layer_id_, target := h.hiz_tx_.current }] ∧
        h1.builds.length = h.builds.length + 1 ∧
        (InSync h → ∀ r ∈ h1.builds.getLast?, r.target = h.hiz_front_ref_tx_) ∧
        h1.is_dirty_ = false ∧
        h1 = { h with builds := h1.builds, is_dirty_ := false } ∧
        update h1 = .ok h1) := by
  refine ⟨fun hc => by simp [update, hc], fun hd => ?_⟩
  refine ⟨{ h with
      builds := h.builds ++
        [{ source := h.src_tx_ptr_, layer := h.layer_id_, target := h.hiz_tx_.current }]
      is_dirty_ := false }, ?_, rfl, ?_, ?_, rfl, rfl, ?_⟩
  · simp [update, hd, hsrc]
  · simp
  · intro hs r hr
    simp at hr
    subst hr
    exact hs.1.symm
  · simp [update]

theorem update_dirty_gating_witness :
    (set_source fresh (some 7) 0).src_tx_ptr_ ≠ none ∧
    (set_source fresh (some 7) 0).is_dirty_ = true ∧
    ∃ h1 : HiZBuffer, update (set_source fresh (some 7) 0) = .ok h1 ∧
      h1.builds = [{ source := some 7, layer := 0, target := some 1 }] ∧
      h1.is_dirty_ = false ∧ update h1 = .ok h1 := by
  obtain ⟨h1, hu, hb, _, _, hd, _, hu2⟩ :=
    (update_dirty_gating (set_source fresh (some 7) 0) (by decide)).2 (by decide)
  exact ⟨by decide, by decide, h1, hu, by simpa using hb, hd, hu2⟩

/-- C2, as stated, fails: in a controller state whose swap chain textures are
allocated while the front and back references are still null, after `swap_layer()`
the new back reference (texture 1) is not what the front reference denoted,
and the new front reference (texture 2) is not what the back reference
denoted. -/
theorem swap_layer_not_exchange_of_refs :
    fresh.hiz_front_ref_tx_ = none ∧ fresh.hiz_back_ref_tx_ = none ∧
    (swap_layer fresh).hiz_back_ref_tx_ = some 1 ∧
    (swap_layer fresh).hiz_front_ref_tx_ = some 2 ∧
    (swap_layer fresh).hiz_back_ref_tx_ ≠ fresh.hiz_front_ref_tx_ ∧
    (swap_layer fresh).hiz_front_ref_tx_ ≠ fresh.hiz_back_ref_tx_ := by
  decide

/-- C2, amended: after `swap_layer()` the back reference is the texture that
was the current one of the swap chain, the front reference is the texture that
was its previous one, the references are in sync with the swapped chain and
`is_dirty` is true. When the references were in sync before the call, this
exchanges them: the new back is the old front and the new front is the old
back. -/
theorem swap_layer_exchanges (h : HiZBuffer) :
    (swap_layer h).hiz_back_ref_tx_ = h.hiz_tx_.current ∧
    (swap_layer h).hiz_front_ref_tx_ = h.hiz_tx_.previous ∧
    (swap_layer h).hiz_tx_ = h.hiz_tx_.swap ∧
    InSync (swap_layer h) ∧
    (swap_layer h).is_dirty_ = true ∧
    (InSync h →
      (swap_layer h).hiz_back_ref_tx_ = h.hiz_front_ref_tx_ ∧
      (swap_layer h).hiz_front_ref_tx_ = h.hiz_back_ref_tx_) := by
  refine ⟨swap_layer_back h, swap_layer_front h, rfl, swap_layer_InSync h, rfl, ?_⟩
  intro hs
  exact ⟨(swap_layer_back h).trans hs.1.symm, (swap_layer_front h).trans hs.2.symm⟩

theorem swap_layer_exchanges_witness :
    InSync (swap_layer fresh) ∧
    (swap_layer (swap_layer fresh)).hiz_back_ref_tx_ = some 2 ∧
    (swap_layer (swap_layer fresh)).hiz_front_ref_tx_ = some 1 := by
  have hx := (swap_layer_exchanges (swap_layer fresh)).2.2.2.2.2 (by decide)
  exact ⟨by decide, hx.1.trans (by decide), hx.2.trans (by decide)⟩

/-- C4: the front and back references are always in sync with the swap chain.
The constructor allocates no texture, so the swap chain of a newly constructed
controller holds no texture in either slot. In every state reached from such a
controller by any sequence of `set_source`, `set_dirty`, `swap_layer` and
`bind_resources` calls (any arguments), the front reference equals the
current texture of the swap chain and the back reference equals its previous
texture; and each of the four calls keeps references that are in sync in
sync. -/
theorem refs_in_sync_from_construction (slot : Nat) (hiz_tx : SwapChain)
    (h0 : hiz_tx.slot0 = none) (h1 : hiz_tx.slot1 = none) (ops : List Op) :
    (run slot (new hiz_tx) ops).hiz_front_ref_tx_ =
      (run slot (new hiz_tx) ops).hiz_tx_.current ∧
    (run slot (new hiz_tx) ops).hiz_back_ref_tx_ =
      (run slot (new hiz_tx) ops).hiz_tx_.previous ∧
    (∀ (h : HiZBuffer) (op : Op), InSync h → InSync (step slot h op)) := by
  have hs := run_preserves_InSync slot ops (new hiz_tx) (new_InSync hiz_tx h0 h1)
  exact ⟨hs.1, hs.2, fun h op hh => step_preserves_InSync slot h op hh⟩

theorem refs_in_sync_from_construction_witness :
    pristine.hiz_tx_.slot0 = none ∧ pristine.hiz_tx_.slot1 = none ∧
    (run 0 pristine [Op.set_source (some 7) 0, Op.swap_layer,
        Op.bind_resources [] HiZType.BACK, Op.set_dirty]).hiz_front_ref_tx_ =
      (run 0 pristine [Op.set_source (some 7) 0, Op.swap_layer,
        Op.bind_resources [] HiZType.BACK, Op.set_dirty]).hiz_tx_.current ∧
    (run 0 pristine [Op.set_source (some 7) 0, Op.swap_layer,
        Op.bind_resources [] HiZType.BACK, Op.set_dirty]).hiz_back_ref_tx_ =
      (run 0 pristine [Op.set_source (some 7) 0, Op.swap_layer,
        Op.bind_resources [] HiZType.BACK, Op.set_dirty]).hiz_tx_.previous :=
  ⟨rfl, rfl,
    (refs_in_sync_from_construction 0 { slot0 := none, slot1 := none, selector := false }
      rfl rfl [Op.set_source (some 7) 0, Op.swap_layer,
        Op.bind_resources [] HiZType.BACK, Op.set_dirty]).1,
    (refs_in_sync_from_construction 0 { slot0 := none, slot1 := none, selector := false }
      rfl rfl [Op.set_source (some 7) 0, Op.swap_layer,
        Op.bind_resources [] HiZType.BACK, Op.set_dirty]).2.1⟩

/-- C5: the dirty flag is cleared only by a build. From a newly constructed
controller, after every sequence of `set_source`, `set_dirty`, `swap_layer`
and `bind_resources` calls (any arguments, no `update()`) `is_dirty` is true;
and from any state with `is_dirty` true each of these four calls yields a
state with `is_dirty` true. -/
theorem dirty_kept_without_update (slot : Nat) :
    (∀ (hiz_tx : SwapChain) (ops : List Op), (run slot (new hiz_tx) ops).is_dirty_ = true) ∧
    (∀ (h : HiZBuffer) (op : Op), h.is_dirty_ = true → (step slot h op).is_dirty_ = true) :=
  ⟨fun hiz_tx ops => run_dirty slot ops (new hiz_tx) rfl,
    fun h op hd => step_dirty slot h op hd⟩

theorem dirty_kept_without_update_witness :
    (set_source fresh (some 7) 3).is_dirty_ = true ∧
    (step 0 (set_source fresh (some 7) 3)
      (Op.bind_resources [] HiZType.BACK)).is_dirty_ = true :=
  ⟨by decide,
    (dirty_kept_without_update 0).2 (set_source fresh (some 7) 3)
      (Op.bind_resources [] HiZType.BACK) (by decide)⟩

/-- C6: `set_source(texture, layer)` is a pure metadata update. It sets the
source reference to `texture` and the layer index to `layer`, which is `-1`
when the argument is omitted, and leaves `is_dirty`, the front and back
references, the swap chain, the tile counter and the build log unchanged. -/
theorem set_source_metadata_only (h : HiZBuffer) (texture : GPUTexturePtrPtr) (layer : Int) :
    (set_source h texture layer).src_tx_ptr_ = texture ∧
    (set_source h texture layer).layer_id_ = layer ∧
    (set_source_default h texture).src_tx_ptr_ = texture ∧
    (set_source_default h texture).layer_id_ = -1 ∧
    (set_source h texture layer).is_dirty_ = h.is_dirty_ ∧
    (set_source h texture layer).hiz_front_ref_tx_ = h.hiz_front_ref_tx_ ∧
    (set_source h texture layer).hiz_back_ref_tx_ = h.hiz_back_ref_tx_ ∧
    (set_source h texture layer).hiz_tx_ = h.hiz_tx_ ∧
    (set_source h texture layer).atomic_tile_counter_ = h.atomic_tile_counter_ ∧
    (set_source h texture layer).builds = h.builds ∧
    set_source_default h texture = set_source h texture (-1) :=
  ⟨rfl, rfl, rfl, rfl, rfl, rfl, rfl, rfl, rfl, rfl, rfl⟩

/-- C7: `bind_resources(pass, type)` returns normally with the controller
unchanged and the pass extended by exactly one texture binding, at
`HIZ_TEX_SLOT`. The binding reads the front reference when `type` is `FRONT`
(also when `type` is omitted) and the back reference when `type` is `BACK`. -/
theorem bind_resources_one_binding (HIZ_TEX_SLOT : Nat) (h : HiZBuffer) (pass : Pass)
    (type : HiZType) :
    ∃ b : TextureBinding,
      bind_resources HIZ_TEX_SLOT h pass type = .ok (h, pass ++ [b]) ∧
      b.slot = HIZ_TEX_SLOT ∧
      (type = HiZType.FRONT → b.ref = RefMember.front_ref) ∧
      (type = HiZType.BACK → b.ref = RefMember.back_ref) ∧
      h.deref b.ref =
        (match type with
          | HiZType.FRONT => h.hiz_front_ref_tx_
          | HiZType.BACK => h.hiz_back_ref_tx_) ∧
      bind_resources_default HIZ_TEX_SLOT h pass =
        .ok (h, pass ++ [{ slot := HIZ_TEX_SLOT, ref := RefMember.front_ref }]) := by
  cases type
  · exact ⟨{ slot := HIZ_TEX_SLOT, ref := RefMember.back_ref }, rfl, rfl,
      fun e => (by cases e), fun _ => rfl, rfl, rfl⟩
  · exact ⟨{ slot := HIZ_TEX_SLOT, ref := RefMember.front_ref }, rfl, rfl,
      fun _ => rfl, fun e => (by cases e), rfl, rfl⟩

theorem bind_resources_one_binding_witness :
    ∃ b : TextureBinding,
      bind_resources 5 (swap_layer fresh) [] HiZType.BACK = .ok (swap_layer fresh, [b]) ∧
      b.ref = RefMember.back_ref ∧ (swap_layer fresh).deref b.ref = some 1 := by
  obtain ⟨b, hb, _, _, hr, hd, _⟩ :=
    bind_resources_one_binding 5 (swap_layer fresh) [] HiZType.BACK
  exact ⟨b, by simpa using hb, hr rfl, hd.trans (by decide)⟩

/-- C9, as stated, fails: on a newly constructed controller, on which no build
has completed, `bind_resources` does not fail with `PreconditionError`; it
returns normally and registers a binding to the (null) front reference. -/
theorem bind_resources_before_build_succeeds :
    pristine.builds = [] ∧
    bind_resources 0 pristine [] HiZType.FRONT ≠ .error HiZError.PreconditionError ∧
    bind_resources 0 pristine [] HiZType.FRONT =
      .ok (pristine, [{ slot := 0, ref := RefMember.front_ref }]) ∧
    pristine.deref RefMember.front_ref = none :=
  ⟨rfl, fun he => (by cases he), rfl, rfl⟩

/-- C9, amended: `bind_resources` called on a controller on which no build has
yet completed does not fail. It raises no error, leaves the controller
unchanged and registers the binding at `HIZ_TEX_SLOT` to the front or back
reference, whatever that reference holds. -/
theorem bind_resources_never_fails (HIZ_TEX_SLOT : Nat) (h : HiZBuffer) (pass : Pass)
    (type : HiZType) (hb : h.builds = []) :
    (∀ e : HiZError, bind_resources HIZ_TEX_SLOT h pass type ≠ .error e) ∧
    bind_resources HIZ_TEX_SLOT h pass type =
      .ok (h, pass ++ [TextureBinding.mk HIZ_TEX_SLOT
        (if type = HiZType.FRONT then RefMember.front_ref else RefMember.back_ref)]) ∧
    h.builds = [] :=
  ⟨fun e he => (by cases he), rfl, hb⟩

theorem bind_resources_never_fails_witness :
    fresh.builds = [] ∧
    bind_resources 3 fresh [] HiZType.BACK =
      .ok (fresh, [{ slot := 3, ref := RefMember.back_ref }]) :=
  ⟨by decide, (bind_resources_never_fails 3 fresh [] HiZType.BACK (by decide)).2.1⟩

/-- C10: `set_dirty()` sets `is_dirty` to true, leaves the source, the layer,
the front and back references, the swap chain, the tile counter and the
build log unchanged, and is idempotent: two consecutive calls give the state
one call gives. -/
theorem set_dirty_idempotent (h : HiZBuffer) :
    (set_dirty h).is_dirty_ = true ∧
    (set_dirty h).src_tx_ptr_ = h.src_tx_ptr_ ∧
    (set_dirty h).layer_id_ = h.layer_id_ ∧
    (set_dirty h).hiz_front_ref_tx_ = h.hiz_front_ref_tx_ ∧
    (set_dirty h).hiz_back_ref_tx_ = h.hiz_back_ref_tx_ ∧
    (set_dirty h).hiz_tx_ = h.hiz_tx_ ∧
    (set_dirty h).atomic_tile_counter_ = h.atomic_tile_counter_ ∧
    (set_dirty h).builds = h.builds ∧
    set_dirty (set_dirty h) = set_dirty h :=
  ⟨rfl, rfl, rfl, rfl, rfl, rfl, rfl, rfl, rfl⟩

end HiZBuffer


/-! ## Theorems about the down-sample pass -/

namespace hiz_update

theorem arrivals_of_cons (a : Arrival) (rest : List Arrival) (region : Nat) :
    arrivals_of (a :: rest) region =
      if a.region = region then a.group :: arrivals_of rest region
      else arrivals_of rest region := by
  by_cases ha : a.region = region <;> simp [arrivals_of, List.filter_cons, ha]

theorem last_arrivals_cons (contributors counters : Nat → Nat) (a : Arrival)
    (rest : List Arrival) (region : Nat) :
    last_arrivals contributors counters (a :: rest) region =
      (if a.region = region ∧ (counters a.region + 1) % uint_range = contributors a.region
        then [a.group] else []) ++
      last_arrivals contributors
        (Function.update counters a.region ((counters a.region + 1) % uint_range)) rest region := by
  by_cases ha : a.region = region
  · subst ha
    by_cases hv : (counters a.region + 1) % uint_range = contributors a.region <;>
      simp [last_arrivals, run_arrivals, atomic_increment_read, List.filter_cons, hv]
  · simp [last_arrivals, run_arrivals, atomic_increment_read, List.filter_cons, ha]

theorem last_arrivals_eq (contributors : Nat → Nat) (region : Nat)
    (hN : contributors region < uint_range) :
    ∀ (schedule : List Arrival) (counters : Nat → Nat),
      counters region + (arrivals_of schedule region).length ≤ contributors region →
      last_arrivals contributors counters schedule region =
        if counters region + (arrivals_of schedule region).length = contributors region
        then (arrivals_of schedule region).getLast?.toList else [] := by
  intro schedule
  induction schedule with
  | nil => intro counters _; simp [last_arrivals, run_arrivals, arrivals_of]
  | cons a rest ih =>
    intro counters hle
    rw [last_arrivals_cons, arrivals_of_cons]
    rw [arrivals_of_cons] at hle
    by_cases ha : a.region = region
    · subst ha
      simp only [if_true, true_and, List.length_cons] at hle ⊢
      have hmod : (counters a.region + 1) % uint_range = counters a.region + 1 :=
        Nat.mod_eq_of_lt (by omega)
      rw [hmod]
      have hih := ih (Function.update counters a.region (counters a.region + 1))
        (by simp; omega)
      rw [hih]
      simp only [Function.update_same]
      cases hrest : arrivals_of rest a.region with
      | nil => simp
      | cons g gs =>
        simp [hrest] at hle ⊢
        have h1 : ¬ counters a.region + 1 = contributors a.region := by omega
        have h2 : (counters a.region + 1 + (gs.length + 1) = contributors a.region) ↔
            (counters a.region + (gs.length + 1 + 1) = contributors a.region) := by omega
        simp only [h1, if_false, List.nil_append, h2]
    · simp only [ha, if_false, false_and, List.nil_append] at hle ⊢
      have hih := ih (Function.update counters a.region ((counters a.region + 1) % uint_range))
        (by rw [Function.update_noteq (Ne.symm ha)]; exact hle)
      rw [hih, Function.update_noteq (Ne.symm ha)]

theorem observed_groups (contributors : Nat → Nat) (region : Nat) :
    ∀ (schedule : List Arrival) (counters : Nat → Nat),
      ((run_arrivals contributors counters schedule).filter
        (fun o => o.region == region)).map (fun o => o.group) =
      arrivals_of schedule region := by
  intro schedule
  induction schedule with
  | nil => intro counters; rfl
  | cons a rest ih =>
    intro counters
    rw [arrivals_of_cons]
    by_cases ha : a.region = region
    · simp [run_arrivals, List.filter_cons, ha, ih]
    · simp [run_arrivals, List.filter_cons, ha, ih]

/-- C8: in the counter protocol of one build, for a coarse region whose counter
starts at zero and whose `N >= 1` contributing groups each perform exactly
one atomic increment-and-read, in every interleaving exactly one group
observes the election condition: the last group of the region to arrive. An
observation of the region is elected if and only if it is that group's. -/
theorem election_exactly_once (contributors counters : Nat → Nat) (schedule : List Arrival)
    (region : Nat) (hzero : counters region = 0) (hpos : 1 ≤ contributors region)
    (hN : contributors region < uint_range)
    (hnodup : (arrivals_of schedule region).Nodup)
    (hlen : (arrivals_of schedule region).length = contributors region) :
    ∃ g : Nat, (arrivals_of schedule region).getLast? = some g ∧
      last_arrivals contributors counters schedule region = [g] ∧
      ∀ o ∈ run_arrivals contributors counters schedule, o.region = region →
        (o.elected = true ↔ o.group = g) := by
  have heq := last_arrivals_eq contributors region hN schedule counters (by omega)
  rw [if_pos (by omega)] at heq
  have hne : arrivals_of schedule region ≠ [] := by
    intro h
    rw [h] at hlen
    simp at hlen
    omega
  obtain ⟨g, hg⟩ : ∃ g, (arrivals_of schedule region).getLast? = some g := by
    cases hl : (arrivals_of schedule region).getLast? with
    | none => exact absurd (List.getLast?_eq_none_iff.mp hl) hne
    | some g => exact ⟨g, rfl⟩
  rw [hg] at heq
  have heq1 : last_arrivals contributors counters schedule region = [g] := heq
  refine ⟨g, hg, heq1, ?_⟩
  intro o ho hr
  constructor
  · intro he
    have hmem : o.group ∈ last_arrivals contributors counters schedule region := by
      simp only [last_arrivals, List.mem_map, List.mem_filter]
      exact ⟨o, ⟨ho, by simp [hr, he]⟩, rfl⟩
    rw [heq1] at hmem
    simpa using hmem
  · intro hgo
    have hmem : g ∈ last_arrivals contributors counters schedule region := by
      rw [heq1]; simp
    simp only [last_arrivals, List.mem_map, List.mem_filter] at hmem
    obtain ⟨o1, ⟨ho1, hc⟩, hg1⟩ := hmem
    simp at hc
    have hnd : (((run_arrivals contributors counters schedule).filter
        (fun o => o.region == region)).map (fun o => o.group)).Nodup := by
      rw [observed_groups]; exact hnodup
    have hoo : o = o1 := by
      apply List.inj_on_of_nodup_map hnd
      · exact List.mem_filter.mpr ⟨ho, by simp [hr]⟩
      · exact List.mem_filter.mpr ⟨ho1, by simp [hc.1]⟩
      · exact hgo.trans hg1.symm
    rw [hoo]; exact hc.2

theorem election_exactly_once_witness :
    arrivals_of example_schedule 0 = [2, 0, 1] ∧
    last_arrivals example_contributors (fun _ => 0) example_schedule 0 = [1] := by
  obtain ⟨g, hg, hl, _⟩ := election_exactly_once example_contributors (fun _ => 0)
    example_schedule 0 rfl (by decide) (by decide) (by decide) (by decide)
  have hg1 : g = 1 := by
    have : (arrivals_of example_schedule 0).getLast? = some 1 := by decide
    rw [this] at hg
    exact (Option.some.inj hg).symm
  subst hg1
  exact ⟨by decide, hl⟩

theorem mip_chain_getElem? {α : Type} [LinearOrder α] (k : Nat) :
    ∀ (img : Image α) (i : Nat), i < k → (mip_chain k img)[i]? = some (downsample^[i] img) := by
  induction k with
  | zero => intro img i hi; omega
  | succ k ih =>
    intro img i hi
    cases i with
    | zero => simp [mip_chain]
    | succ i =>
      simp only [mip_chain, List.getElem?_cons_succ, Function.iterate_succ_apply]
      exact ih (downsample img) i (by omega)

theorem mip_chain_length {α : Type} [LinearOrder α] (k : Nat) :
    ∀ img : Image α, (mip_chain k img).length = k := by
  induction k with
  | zero => intro img; rfl
  | succ k ih => intro img; simp [mip_chain, ih]

theorem half_of_pow_mul (j q : Nat) : (2 ^ (j + 1) * q + 1) / 2 = 2 ^ j * q := by
  have : 2 ^ (j + 1) * q = 2 * (2 ^ j * q) := by ring
  omega

theorem iterate_downsample_width {α : Type} [LinearOrder α] (q : Nat) (i : Nat) :
    ∀ (j : Nat) (img : Image α), i ≤ j → img.width = 2 ^ j * q →
      (downsample^[i] img).width = 2 ^ (j - i) * q := by
  induction i with
  | zero => intro j img _ hw; simpa using hw
  | succ i ih =>
    intro j img hij hw
    obtain ⟨j1, rfl⟩ : ∃ j1, j = j1 + 1 := ⟨j - 1, by omega⟩
    rw [Function.iterate_succ_apply]
    have hd : (downsample img).width = 2 ^ j1 * q := by
      show (img.width + 1) / 2 = _
      rw [hw, half_of_pow_mul]
    have := ih j1 (downsample img) (by omega) hd
    rw [this]
    congr 2
    omega

theorem iterate_downsample_height {α : Type} [LinearOrder α] (q : Nat) (i : Nat) :
    ∀ (j : Nat) (img : Image α), i ≤ j → img.height = 2 ^ j * q →
      (downsample^[i] img).height = 2 ^ (j - i) * q := by
  induction i with
  | zero => intro j img _ hw; simpa using hw
  | succ i ih =>
    intro j img hij hw
    obtain ⟨j1, rfl⟩ : ∃ j1, j = j1 + 1 := ⟨j - 1, by omega⟩
    rw [Function.iterate_succ_apply]
    have hd : (downsample img).height = 2 ^ j1 * q := by
      show (img.height + 1) / 2 = _
      rw [hw, half_of_pow_mul]
    have := ih j1 (downsample img) (by omega) hd
    rw [this]
    congr 2
    omega

theorem padded_extent_eq (K n : Nat) :
    padded_extent K n = 2 ^ (K - 1) * ((n + 2 ^ (K - 1) - 1) / 2 ^ (K - 1)) := by
  unfold padded_extent ceil_to_multiple
  exact Nat.mul_comm _ _

theorem le_padded_extent (K n : Nat) : n ≤ padded_extent K n := by
  unfold padded_extent ceil_to_multiple
  have hb : 0 < 2 ^ (K - 1) := Nat.two_pow_pos (K - 1)
  have h1 := Nat.div_add_mod (n + 2 ^ (K - 1) - 1) (2 ^ (K - 1))
  have h2 := Nat.mod_lt (n + 2 ^ (K - 1) - 1) hb
  rw [Nat.mul_comm] at h1
  omega

theorem flat_index_mod (w x y : Nat) (hx : x < w) : (y * w + x) % w = x := by
  rw [Nat.add_comm, Nat.add_mul_mod_self_right, Nat.mod_eq_of_lt hx]

theorem flat_index_div (w x y : Nat) (hx : x < w) : (y * w + x) / w = y := by
  rw [Nat.add_comm, Nat.add_mul_div_right _ _ (by omega), Nat.div_eq_of_lt hx, Nat.zero_add]

theorem downsample_texel {α : Type} [LinearOrder α] (img : Image α) (x y : Nat)
    (hx : x < (downsample img).width) :
    (downsample img).texel x y =
      reduce4 (img.texel (2 * x) (2 * y)) (img.texel (2 * x + 1) (2 * y))
        (img.texel (2 * x) (2 * y + 1)) (img.texel (2 * x + 1) (2 * y + 1)) := by
  have hx1 : x < (img.width + 1) / 2 := hx
  have hm := flat_index_mod _ x y hx1
  have hd := flat_index_div _ x y hx1
  simp only [Image.texel, downsample] at hm hd ⊢
  rw [hm, hd]

theorem copy_mip_0_texel {α : Type} (K : Nat) (fill : Nat → Nat → α) (src : Image α)
    (x y : Nat) (hx : x < src.width) (hy : y < src.height) :
    (copy_mip_0 K fill src).texel x y = src.texel x y := by
  have hxp : x < padded_extent K src.width := lt_of_lt_of_le hx (le_padded_extent K _)
  have hm := flat_index_mod _ x y hxp
  have hd := flat_index_div _ x y hxp
  simp only [Image.texel, copy_mip_0] at hm hd ⊢
  rw [hm, hd, if_pos ⟨hx, hy⟩]

/-- C3: after a build with `K` mip levels, for every level `i` in `[0, K-2]`
the level `i+1` has exactly half the width and height of level `i`, and for
every texel `(x, y)` of level `i+1` the block `(2x,2y)`, `(2x+1,2y)`,
`(2x,2y+1)`, `(2x+1,2y+1)` lies inside level `i` and the stored value is the
maximum of its four texels. The build has `K` levels and level 0 holds the
source. For the 6 by 6 source with `v(x,y) = x + y` and two levels, level 1 is
3 by 3, its texel `(0,0)` is 2 and its texel `(2,2)` is 10. -/
theorem mip_correctness {α : Type} [LinearOrder α] (K : Nat) (fill : Nat → Nat → α)
    (src : Image α) (i : Nat) (hi : i + 1 < K) :
    (build K fill src).length = K ∧
    (∃ m0 : Image α, (build K fill src)[0]? = some m0 ∧
      ∀ x y : Nat, x < src.width → y < src.height → m0.texel x y = src.texel x y) ∧
    (∃ lower upper : Image α,
      (build K fill src)[i]? = some lower ∧ (build K fill src)[i + 1]? = some upper ∧
      upper.width * 2 = lower.width ∧ upper.height * 2 = lower.height ∧
      ∀ x y : Nat, x < upper.width → y < upper.height →
        2 * x + 1 < lower.width ∧ 2 * y + 1 < lower.height ∧
        upper.texel x y =
          max (max (lower.texel (2 * x) (2 * y)) (lower.texel (2 * x + 1) (2 * y)))
            (max (lower.texel (2 * x) (2 * y + 1)) (lower.texel (2 * x + 1) (2 * y + 1)))) ∧
    (∀ pad : Nat → Nat → Nat,
      ∃ m1 : Image Nat, (build 2 pad scenario_source)[1]? = some m1 ∧
        m1.width = 3 ∧ m1.height = 3 ∧ m1.texel 0 0 = 2 ∧ m1.texel 2 2 = 10) := by
  refine ⟨mip_chain_length K _, ⟨copy_mip_0 K fill src, ?_, ?_⟩, ?_,
    fun pad => ⟨downsample (copy_mip_0 2 pad scenario_source), rfl, ?_, ?_, ?_, ?_⟩⟩
  · exact mip_chain_getElem? K _ 0 (by omega)
  · intro x y hx hy
    exact copy_mip_0_texel K fill src x y hx hy
  · refine ⟨downsample^[i] (copy_mip_0 K fill src),
      downsample^[i + 1] (copy_mip_0 K fill src),
      mip_chain_getElem? K _ i (by omega), mip_chain_getElem? K _ (i + 1) hi, ?_⟩
    have hw0 : (copy_mip_0 K fill src).width = 2 ^ (K - 1) * _ := padded_extent_eq K src.width
    have hh0 : (copy_mip_0 K fill src).height = 2 ^ (K - 1) * _ := padded_extent_eq K src.height
    have hwl := iterate_downsample_width _ i (K - 1) _ (by omega) hw0
    have hwu := iterate_downsample_width _ (i + 1) (K - 1) _ (by omega) hw0
    have hhl := iterate_downsample_height _ i (K - 1) _ (by omega) hh0
    have hhu := iterate_downsample_height _ (i + 1) (K - 1) _ (by omega) hh0
    have hpow : 2 ^ (K - 1 - i) = 2 ^ (K - 1 - (i + 1)) * 2 := by
      rw [← pow_succ]
      congr 1
      omega
    have hwe : (downsample^[i + 1] (copy_mip_0 K fill src)).width * 2 =
        (downsample^[i] (copy_mip_0 K fill src)).width := by
      rw [hwl, hwu, hpow]; ring
    have hhe : (downsample^[i + 1] (copy_mip_0 K fill src)).height * 2 =
        (downsample^[i] (copy_mip_0 K fill src)).height := by
      rw [hhl, hhu, hpow]; ring
    refine ⟨hwe, hhe, ?_⟩
    intro x y hx hy
    refine ⟨by omega, by omega, ?_⟩
    rw [Function.iterate_succ_apply'] at hx ⊢
    exact downsample_texel _ x y hx
  · simp [downsample, copy_mip_0, padded_extent, ceil_to_multiple, scenario_source]
  · simp [downsample, copy_mip_0, padded_extent, ceil_to_multiple, scenario_source]
  · simp [Image.texel, downsample, copy_mip_0, padded_extent, ceil_to_multiple,
      scenario_source, reduce4]
  · simp [Image.texel, downsample, copy_mip_0, padded_extent, ceil_to_multiple,
      scenario_source, reduce4]

theorem mip_correctness_witness :
    0 + 1 < 2 ∧
    ∃ lower upper : Image Nat,
      (build 2 (fun _ _ => 0) scenario_source)[0]? = some lower ∧
      (build 2 (fun _ _ => 0) scenario_source)[0 + 1]? = some upper ∧
      upper.width * 2 = lower.width ∧
      upper.texel 2 2 =
        max (max (lower.texel 4 4) (lower.texel 5 4)) (max (lower.texel 4 5) (lower.texel 5 5)) := by
  obtain ⟨_, _, ⟨lower, upper, hl, hu, hw, _, ht⟩, _⟩ :=
    mip_correctness 2 (fun _ _ => 0) scenario_source 0 (by decide)
  have hu3 : upper.width = 3 ∧ upper.height = 3 := by
    have : (build 2 (fun _ _ => 0) scenario_source)[0 + 1]? = some (downsample
        (copy_mip_0 2 (fun _ _ => 0) scenario_source)) := rfl
    rw [this] at hu
    cases hu
    exact ⟨by decide, by decide⟩
  exact ⟨by decide, lower, upper, hl, hu, hw, (ht 2 2 (by omega) (by omega)).2.2⟩

end hiz_update

end blender.eevee
